import Mathlib

/-!
Verification of the realtime presence and messaging relay
(src/server/server.js) against its natural-language specification.

The server keeps four in-memory JS objects:
  userConnBucket : email -> list of socket ids      (SessionRegistry)
  connections    : socket id -> email               (reverse index)
  lastActivity   : email -> timestamp               (ActivityTracker)
  groupRooms     : group id -> list of socket ids   (RoomRegistry)
JS objects keyed by strings are embedded as association lists that keep the
object's key-insertion order: assignment replaces the value in place for an
existing key and appends a new key at the end; `delete` removes the key.

The durable presence store (the `students` SQL table) and the message store
are external collaborators; the presence store is embedded from the spec's
collaborator contract (see `setStatus`).  Timers (the 10-second disconnect
grace timeout and the 60-second inactivity sweep) are embedded as explicit
steps `graceTimerFire` and `sweep` that fire at some later instant.
-/

namespace NodeSockets

abbrev Email := String
abbrev SocketId := String
abbrev GroupId := String

section AList

variable {α : Type} {β : Type} [DecidableEq α]

/-- Reading `obj[k]` from a JS object embedded as an association list. -/
def alGet : List (α × β) → α → Option β
  | [], _ => none
  | (k2, v) :: rest, k => if k2 = k then some v else alGet rest k

/-- JS `obj[k] = v`: replace in place when the key exists, append otherwise. -/
def alSet : List (α × β) → α → β → List (α × β)
  | [], k, v => [(k, v)]
  | (k2, v2) :: rest, k, v =>
      if k2 = k then (k, v) :: rest else (k2, v2) :: alSet rest k v

/-- JS `delete obj[k]`. -/
def alDel : List (α × β) → α → List (α × β)
  | [], _ => []
  | (k2, v2) :: rest, k =>
      if k2 = k then alDel rest k else (k2, v2) :: alDel rest k

end AList

/-- JS `list.filter (id => id !== x)`. -/
def filterNe [DecidableEq α] : List α → α → List α
  | [], _ => []
  | a :: rest, x => if a = x then filterNe rest x else a :: filterNe rest x

/-- Events the server emits to connected clients (`io.emit` / `io.to(room).emit`). -/
inductive Emit where
  | statusUpdate (email : Email) (status : String)
  | chatMessage (sender receiver msg : String)
  | groupMessage (gid : GroupId) (sender msg : String)
  | groupCreated (gid : GroupId)
deriving DecidableEq, Repr

/-- The server's in-memory state plus the embedded presence store.
`students` maps each existing, non-deleted student's email to its stored
status string; a missing key models an unknown or deleted identity. -/
structure ServerState where
  userConnBucket : List (Email × List SocketId)
  connections : List (SocketId × Email)
  lastActivity : List (Email × Nat)
  groupRooms : List (GroupId × List SocketId)
  students : List (Email × String)
deriving DecidableEq, Repr

/-- `INACTIVITY_TIMEOUT = 5 * 60 * 1000` ms (server.js line 51). -/
def INACTIVITY_TIMEOUT : Nat := 5 * 60 * 1000

/-- Modelled from the spec: the PresenceStore collaborator contract,
`setStatus(identity, status) -> affected:bool`, where `affected`
distinguishes "identity exists and changed" from "no such identity" or
"unchanged" (spec, section 6).  In the code this collaborator is the SQL
statement `UPDATE students SET status = ? WHERE email = ? AND is_deleted = 0`
together with its `affectedRows` count; the table itself is outside the
repository, so it is embedded from the spec's contract: the stored value is
replaced and `affected` is true exactly when the email has a row and the
stored status actually changes. -/
def setStatus (students : List (Email × String)) (email : Email) (st : String) :
    List (Email × String) × Bool :=
  match alGet students email with
  | none => (students, false)
  | some cur => if cur = st then (students, false) else (alSet students email st, true)

/-- `markOffline` (server.js lines 54-67): presence write to `offline`;
broadcasts `status_update(offline)` only when the write reports a change. -/
def markOffline (s : ServerState) (email : Email) : ServerState × List Emit :=
  ({ s with students := (setStatus s.students email "offline").1 },
   if (setStatus s.students email "offline").2 then
     [Emit.statusUpdate email "offline"] else [])

/-- The bucket the login handler pushes the socket into (lines 181-186):
create the entry when missing, then push the socket id unless present. -/
def loginBucket (b : List SocketId) (sock : SocketId) : List SocketId :=
  if sock ∈ b then b else b ++ [sock]

/-- Adding one socket to one group room (lines 202-207 et al.): create the
entry when missing, push the socket unless already present. -/
def addSockToRoom (rooms : List (GroupId × List SocketId)) (gid : GroupId)
    (sock : SocketId) : List (GroupId × List SocketId) :=
  alSet rooms gid (loginBucket ((alGet rooms gid).getD []) sock)

/-- The login handler's loop joining the socket to every group the identity
is an active member of (lines 191-208); `groups` is the membership
authority's answer. -/
def joinRooms (rooms : List (GroupId × List SocketId)) (sock : SocketId) :
    List GroupId → List (GroupId × List SocketId)
  | [] => rooms
  | g :: rest => joinRooms (addSockToRoom rooms g sock) sock rest

/-- `socket.on("user_login")` (server.js lines 166-215).  The presence write
gates everything: only when it reports a change does the handler broadcast
`status_update(online)`, track the connection in `userConnBucket` and
`connections`, stamp `lastActivity`, and join the identity's group rooms. -/
def userLogin (s : ServerState) (email : Email) (sock : SocketId)
    (groups : List GroupId) (now : Nat) : ServerState × List Emit :=
  if (setStatus s.students email "online").2 then
    ({ s with students := (setStatus s.students email "online").1,
              userConnBucket :=
                alSet s.userConnBucket email (loginBucket ((alGet s.userConnBucket email).getD []) sock),
              connections := alSet s.connections sock email,
              lastActivity := alSet s.lastActivity email now,
              groupRooms := joinRooms s.groupRooms sock groups },
     [Emit.statusUpdate email "online"])
  else (s, [])

/-- `socket.on("user_heartbeat")` (server.js lines 218-236).  Guarded by
`if (userConnBucket[email])`: an *absent* entry is falsy and skips the body,
but an existing empty array is truthy, so the body also runs for an identity
whose entry exists with zero sockets.  The body stamps `lastActivity` and
issues the presence write, broadcasting only on a reported change. -/
def userHeartbeat (s : ServerState) (email : Email) (now : Nat) :
    ServerState × List Emit :=
  match alGet s.userConnBucket email with
  | none => (s, [])
  | some _ =>
      ({ s with lastActivity := alSet s.lastActivity email now,
                students := (setStatus s.students email "online").1 },
       if (setStatus s.students email "online").2 then
         [Emit.statusUpdate email "online"] else [])

/-- The logout handler's bucket and activity update (lines 254-262): filter
the socket out of the identity's bucket; when the bucket empties, delete the
bucket entry and the `lastActivity` entry. -/
def logoutBucketLa (bucket : List (Email × List SocketId)) (la : List (Email × Nat))
    (email : Email) (sock : SocketId) :
    List (Email × List SocketId) × List (Email × Nat) :=
  match alGet bucket email with
  | none => (bucket, la)
  | some l =>
      if filterNe l sock = [] then (alDel bucket email, alDel la email)
      else (alSet bucket email (filterNe l sock), la)

/-- Filtering one socket out of every group room, deleting rooms that become
empty (lines 265-272 and 448-455). -/
def roomsRemoveSock : List (GroupId × List SocketId) → SocketId →
    List (GroupId × List SocketId)
  | [], _ => []
  | (g, l) :: rest, sock =>
      if filterNe l sock = [] then roomsRemoveSock rest sock
      else (g, filterNe l sock) :: roomsRemoveSock rest sock

/-- `socket.on("user_logout")` (server.js lines 239-281).  The presence
write to `offline` gates everything; on a reported change the handler
broadcasts `status_update(offline)`, removes the triggering socket from the
identity's bucket (deleting bucket and activity entries when it empties),
filters the socket out of every group room, and deletes its reverse-index
entry.  The handler does not check that the socket belongs to the email. -/
def userLogout (s : ServerState) (email : Email) (sock : SocketId) :
    ServerState × List Emit :=
  if (setStatus s.students email "offline").2 then
    ({ s with students := (setStatus s.students email "offline").1,
              userConnBucket := (logoutBucketLa s.userConnBucket s.lastActivity email sock).1,
              lastActivity := (logoutBucketLa s.userConnBucket s.lastActivity email sock).2,
              groupRooms := roomsRemoveSock s.groupRooms sock,
              connections := alDel s.connections sock },
     [Emit.statusUpdate email "offline"])
  else (s, [])

/-- `socket.on("chat_message")` (lines 284-311): the message insert is an
external store call (`insertOk` is its outcome); on success the message is
broadcast globally, otherwise nothing is emitted; in-memory state is never
touched. -/
def chatMessage (s : ServerState) (sender receiver msg : String) (insertOk : Bool) :
    ServerState × List Emit :=
  (s, if insertOk then [Emit.chatMessage sender receiver msg] else [])

/-- Result of the group-message handler: the state (never mutated in
memory), the emitted events, and whether the store insert was attempted. -/
structure GroupMsgResult where
  state : ServerState
  emits : List Emit
  insertAttempted : Bool
deriving DecidableEq, Repr

/-- `socket.on("group_message")` (server.js lines 314-372).  `memberOk` is
the membership authority's answer and `insertOk` the message store's: a
non-member request returns silently before the insert; a failed insert
suppresses the room broadcast. -/
def groupMessage (s : ServerState) (sender : Email) (gid : GroupId) (msg : String)
    (memberOk : Bool) (insertOk : Bool) : GroupMsgResult :=
  if memberOk then
    if insertOk then ⟨s, [Emit.groupMessage gid sender msg], true⟩
    else ⟨s, [], true⟩
  else ⟨s, [], false⟩

/-- `socket.on("join_group")` (server.js lines 375-404): gated only on the
membership authority (`memberOk`); the requesting socket's registration is
not consulted.  On success the socket is added to the room's entry. -/
def joinGroup (s : ServerState) (sock : SocketId) (gid : GroupId) (memberOk : Bool) :
    ServerState × List Emit :=
  if memberOk then
    ({ s with groupRooms := addSockToRoom s.groupRooms gid sock }, [])
  else (s, [])

/-- `socket.on("leave_group")` (server.js lines 407-422): filter the socket
out of the room, deleting the entry when it empties. -/
def leaveGroup (s : ServerState) (sock : SocketId) (gid : GroupId) :
    ServerState × List Emit :=
  match alGet s.groupRooms gid with
  | none => (s, [])
  | some l =>
      (if filterNe l sock = [] then { s with groupRooms := alDel s.groupRooms gid }
       else { s with groupRooms := alSet s.groupRooms gid (filterNe l sock) }, [])

/-- The bucket update of the disconnect handler (lines 430-434): filter the
socket out of the owning identity's bucket; the entry is kept even when it
becomes empty (deletion is deferred to the grace timer). -/
def disconnectBucket (bucket : List (Email × List SocketId)) (email : Email)
    (sock : SocketId) : List (Email × List SocketId) :=
  match alGet bucket email with
  | none => bucket
  | some l => alSet bucket email (filterNe l sock)

/-- `socket.on("disconnect")` (server.js lines 425-459), immediate part.
Everything is guarded by the reverse-index lookup: an unknown socket is a
complete no-op.  For a registered socket the handler filters it from the
owning identity's bucket (keeping an emptied entry), filters it from every
group room, and deletes its reverse-index entry.  The 10-second grace timer
scheduled when the bucket empties is embedded separately as
`graceTimerFire`. -/
def disconnect (s : ServerState) (sock : SocketId) : ServerState × List Emit :=
  match alGet s.connections sock with
  | none => (s, [])
  | some email =>
      ({ s with userConnBucket := disconnectBucket s.userConnBucket email sock,
                groupRooms := roomsRemoveSock s.groupRooms sock,
                connections := alDel s.connections sock }, [])

/-- The `setTimeout` callback of the disconnect handler (lines 437-443),
firing 10 seconds after the identity's bucket emptied: only when
`userConnBucket[email]?.length === 0` still holds — the entry exists and is
empty — does it run `markOffline` and delete the activity and bucket
entries.  A deleted entry (`undefined?.length` is not `0`) or a repopulated
bucket makes it a no-op. -/
def graceTimerFire (s : ServerState) (email : Email) : ServerState × List Emit :=
  match alGet s.userConnBucket email with
  | some [] =>
      ({ (markOffline s email).1 with
           lastActivity := alDel s.lastActivity email,
           userConnBucket := alDel s.userConnBucket email },
       (markOffline s email).2)
  | _ => (s, [])

/-- One iteration of the inactivity sweep (lines 100-106) for one key of
`lastActivity`: when the last-activity age exceeds the threshold AND the
identity's bucket entry exists with zero sockets, run `markOffline` and
delete the activity entry (the bucket entry is kept). -/
def sweepOne (s : ServerState) (email : Email) (now : Nat) : ServerState × List Emit :=
  match alGet s.lastActivity email with
  | none => (s, [])
  | some t =>
      if now - t > INACTIVITY_TIMEOUT then
        match alGet s.userConnBucket email with
        | some [] =>
            ({ (markOffline s email).1 with lastActivity := alDel s.lastActivity email },
             (markOffline s email).2)
        | _ => (s, [])
      else (s, [])

/-- The sweep's `for (const email in lastActivity)` loop over a key list. -/
def sweepKeys (s : ServerState) (now : Nat) : List Email → ServerState × List Emit
  | [] => (s, [])
  | k :: rest =>
      ((sweepKeys (sweepOne s k now).1 now rest).1,
       (sweepOne s k now).2 ++ (sweepKeys (sweepOne s k now).1 now rest).2)

/-- One run of the 60-second inactivity sweep (server.js lines 98-108),
iterating over the keys of `lastActivity`. -/
def sweep (s : ServerState) (now : Nat) : ServerState × List Emit :=
  sweepKeys s now (s.lastActivity.map Prod.fst)

/-- The inner loop of `/emit_group_created` joining each live socket of one
member to the room (lines 123-139); `live` is the set of socket ids the
transport still holds. -/
def addLiveSocks (rooms : List (GroupId × List SocketId)) (gid : GroupId)
    (live : List SocketId) : List SocketId → List (GroupId × List SocketId)
  | [] => rooms
  | sk :: rest =>
      addLiveSocks (if sk ∈ live then addSockToRoom rooms gid sk else rooms) gid live rest

/-- The member loop of `/emit_group_created` (lines 122-140). -/
def groupCreatedRooms (s : ServerState) (gid : GroupId) (live : List SocketId) :
    List Email → List (GroupId × List SocketId) → List (GroupId × List SocketId)
  | [], rooms => rooms
  | em :: rest, rooms =>
      groupCreatedRooms s gid live rest
        (match alGet s.userConnBucket em with
         | none => rooms
         | some socks => addLiveSocks rooms gid live socks)

/-- `app.post("/emit_group_created")` (server.js lines 111-160): join every
live socket of every listed member (and the creator) to the room, then emit
one `group_created` event to the room. -/
def emitGroupCreated (s : ServerState) (gid : GroupId) (members : List Email)
    (createdBy : Email) (live : List SocketId) : ServerState × List Emit :=
  ({ s with groupRooms := groupCreatedRooms s gid live (members ++ [createdBy]) s.groupRooms },
   [Emit.groupCreated gid])

/-- Every externally triggered step of the server: inbound socket events,
the HTTP admission point, the disconnect grace timer and the periodic
sweep.  Store and membership-authority answers ride on the event. -/
inductive Ev where
  | login (email : Email) (sock : SocketId) (groups : List GroupId) (now : Nat)
  | heartbeat (email : Email) (now : Nat)
  | logout (email : Email) (sock : SocketId)
  | chatMsg (sender receiver msg : String) (insertOk : Bool)
  | groupMsg (sender : Email) (gid : GroupId) (msg : String) (memberOk insertOk : Bool)
  | joinGroupEv (sock : SocketId) (gid : GroupId) (memberOk : Bool)
  | leaveGroupEv (sock : SocketId) (gid : GroupId)
  | disconnectEv (sock : SocketId)
  | graceFire (email : Email)
  | sweepEv (now : Nat)
  | groupCreatedEv (gid : GroupId) (members : List Email) (createdBy : Email)
      (live : List SocketId)
deriving Repr

/-- Dispatch of one step. -/
def step (s : ServerState) (e : Ev) : ServerState × List Emit :=
  match e with
  | .login email sock groups now => userLogin s email sock groups now
  | .heartbeat email now => userHeartbeat s email now
  | .logout email sock => userLogout s email sock
  | .chatMsg a b c ok => chatMessage s a b c ok
  | .groupMsg sender gid msg m i =>
      ((groupMessage s sender gid msg m i).state, (groupMessage s sender gid msg m i).emits)
  | .joinGroupEv sock gid ok => joinGroup s sock gid ok
  | .leaveGroupEv sock gid => leaveGroup s sock gid
  | .disconnectEv sock => disconnect s sock
  | .graceFire email => graceTimerFire s email
  | .sweepEv now => sweep s now
  | .groupCreatedEv gid ms cb live => emitGroupCreated s gid ms cb live

/-- The connection set the SessionRegistry holds for an identity. -/
def bucketOf (s : ServerState) (email : Email) : List SocketId :=
  (alGet s.userConnBucket email).getD []

/-- Session-registry/reverse-index consistency: every socket in some
identity's bucket resolves through the reverse index to that identity. -/
def Inv (s : ServerState) : Prop :=
  ∀ email sk, sk ∈ bucketOf s email → alGet s.connections sk = some email

/-- A connection appears under at most one identity. -/
def AtMostOne (s : ServerState) : Prop :=
  ∀ sk e1 e2, sk ∈ bucketOf s e1 → sk ∈ bucketOf s e2 → e1 = e2

/-- Well-formed inbound events: a login or logout event carries the identity
under which its connection is registered, or arrives on an unregistered
connection.  (The handlers never check this themselves.) -/
def evWF (s : ServerState) (e : Ev) : Prop :=
  match e with
  | .login email sock _ _ =>
      alGet s.connections sock = none ∨ alGet s.connections sock = some email
  | .logout email sock =>
      alGet s.connections sock = none ∨ alGet s.connections sock = some email
  | _ => True

/-- How many `status_update(offline)` broadcasts for one identity a run emitted. -/
def countOffline (evs : List Emit) (email : Email) : Nat :=
  (evs.filter (fun ev => decide (ev = Emit.statusUpdate email "offline"))).length

/-- How many `status_update(online)` broadcasts for one identity a run emitted. -/
def countOnline (evs : List Emit) (email : Email) : Nat :=
  (evs.filter (fun ev => decide (ev = Emit.statusUpdate email "online"))).length

/-- `n` repetitions of one identical `user_login` event, collecting emits. -/
def loginRepeat (email : Email) (sock : SocketId) (groups : List GroupId) (now : Nat) :
    Nat → ServerState → ServerState × List Emit
  | 0, s => (s, [])
  | Nat.succ n, s =>
      ((loginRepeat email sock groups now n (userLogin s email sock groups now).1).1,
       (userLogin s email sock groups now).2 ++
         (loginRepeat email sock groups now n (userLogin s email sock groups now).1).2)

/-- Whether a socket is a member of any tracked group room. -/
def inAnyRoom (s : ServerState) (sock : SocketId) : Bool :=
  s.groupRooms.any (fun p => decide (sock ∈ p.2))

/-- The state with no connections, no rooms, no activity and an empty store. -/
def emptyState : ServerState := ⟨[], [], [], [], []⟩

/-- A fresh server whose store knows one identity, currently offline. -/
def storeOffA : ServerState := ⟨[], [], [], [], [("a@x", "offline")]⟩

/-- A fresh server whose store knows one identity, currently online. -/
def storeOnA : ServerState := ⟨[], [], [], [], [("a@x", "online")]⟩

/-- An identity with two live registered connections, online in the store. -/
def twoConnState : ServerState :=
  ⟨[("e@x", ["s1", "s2"])], [("s1", "e@x"), ("s2", "e@x")], [("e@x", 7)], [],
   [("e@x", "online")]⟩

/-- A fresh server whose store knows one identity, offline. -/
def c3Start : ServerState := ⟨[], [], [], [], [("e@x", "offline")]⟩

/-- `c3Start` after a login of that identity on socket s1. -/
def c3AfterLogin : ServerState := (userLogin c3Start "e@x" "s1" [] 0).1

/-- `c3AfterLogin` after s1's transport close: the bucket entry stays, empty. -/
def c3AfterDisc : ServerState := (disconnect c3AfterLogin "s1").1

/-- `c3AfterDisc` after a sweep 6 minutes later: store offline, activity entry
gone, the empty bucket entry still present. -/
def c3Swept : ServerState := (sweep c3AfterDisc 360001).1

/-- A fresh server whose store knows two identities, both offline. -/
def c6Start : ServerState := ⟨[], [], [], [], [("e1@x", "offline"), ("e2@x", "offline")]⟩

/-- `c6Start` after socket s1 logs in as e1@x and then again as e2@x. -/
def c6End : ServerState :=
  (step (step c6Start (Ev.login "e1@x" "s1" [] 0)).1 (Ev.login "e2@x" "s1" [] 0)).1

/-- An identity with a six-minute-old activity stamp and no bucket entry. -/
def c7NoEntry : ServerState := ⟨[], [], [("c@x", 0)], [], [("c@x", "online")]⟩

/-- An identity with a six-minute-old activity stamp and an existing empty
bucket entry. -/
def c7SweepReady : ServerState := ⟨[("c@x", [])], [], [("c@x", 0)], [], [("c@x", "online")]⟩

/-- Socket s1 joined room g1 without ever logging in. -/
def c8Joined : ServerState := (joinGroup emptyState "s1" "g1" true).1

/-- A registered connection s1 that is also in a room alongside s7. -/
def c8Reg : ServerState :=
  ⟨[("e@x", ["s1"])], [("s1", "e@x")], [("e@x", 0)], [("g1", ["s1", "s7"])],
   [("e@x", "online")]⟩

/-! ## Association-list lemmas -/

section AListLemmas

variable {α : Type} {β : Type} [DecidableEq α]

theorem alGet_alSet (l : List (α × β)) (k k2 : α) (v : β) :
    alGet (alSet l k v) k2 = if k = k2 then some v else alGet l k2 := by
  induction l with
  | nil => simp [alGet, alSet]
  | cons hd tl ih =>
      obtain ⟨a, b⟩ := hd
      by_cases hak : a = k
      · subst hak
        by_cases hk2 : a = k2 <;> simp [alGet, alSet, hk2]
      · by_cases hk2 : a = k2
        · subst hk2
          have : k ≠ a := fun h => hak h.symm
          simp [alGet, alSet, hak, this]
        · simp [alGet, alSet, hak, hk2, ih]

theorem alGet_alSet_self (l : List (α × β)) (k : α) (v : β) :
    alGet (alSet l k v) k = some v := by
  simp [alGet_alSet]

theorem alGet_alSet_ne (l : List (α × β)) (k k2 : α) (v : β) (h : k ≠ k2) :
    alGet (alSet l k v) k2 = alGet l k2 := by
  simp [alGet_alSet, h]

theorem alGet_alDel (l : List (α × β)) (k k2 : α) :
    alGet (alDel l k) k2 = if k = k2 then none else alGet l k2 := by
  induction l with
  | nil => simp [alGet, alDel]
  | cons hd tl ih =>
      obtain ⟨a, b⟩ := hd
      by_cases hak : a = k
      · subst hak
        by_cases hk2 : a = k2
        · subst hk2
          simp [alGet, alDel, ih]
        · simp [alGet, alDel, hk2, ih]
      · by_cases hk2 : a = k2
        · subst hk2
          have : k ≠ a := fun h => hak h.symm
          simp [alGet, alDel, hak, this]
        · simp [alGet, alDel, hak, hk2, ih]

theorem alGet_alDel_self (l : List (α × β)) (k : α) :
    alGet (alDel l k) k = none := by
  simp [alGet_alDel]

theorem alGet_alDel_ne (l : List (α × β)) (k k2 : α) (h : k ≠ k2) :
    alGet (alDel l k) k2 = alGet l k2 := by
  simp [alGet_alDel, h]

theorem alGet_eq_some_mem_keys (l : List (α × β)) (k : α) (v : β)
    (h : alGet l k = some v) : k ∈ l.map Prod.fst := by
  induction l with
  | nil => simp [alGet] at h
  | cons hd tl ih =>
      obtain ⟨a, b⟩ := hd
      by_cases hak : a = k
      · subst hak; simp
      · simp [alGet, hak] at h
        simpa using Or.inr (ih h)

theorem mem_filterNe (l : List α) (x y : α) :
    y ∈ filterNe l x ↔ y ∈ l ∧ y ≠ x := by
  induction l with
  | nil => simp [filterNe]
  | cons a tl ih =>
      by_cases hax : a = x
      · subst hax
        rw [filterNe, if_pos rfl, ih]
        constructor
        · rintro ⟨hy, hne⟩
          exact ⟨List.mem_cons_of_mem _ hy, hne⟩
        · rintro ⟨hy, hne⟩
          rcases List.mem_cons.1 hy with rfl | hy2
          · exact absurd rfl hne
          · exact ⟨hy2, hne⟩
      · rw [filterNe, if_neg hax]
        constructor
        · intro h
          rcases List.mem_cons.1 h with rfl | h2
          · exact ⟨List.mem_cons_self _ _, hax⟩
          · obtain ⟨hy, hne⟩ := ih.1 h2
            exact ⟨List.mem_cons_of_mem _ hy, hne⟩
        · rintro ⟨hy, hne⟩
          rcases List.mem_cons.1 hy with rfl | h2
          · exact List.mem_cons_self _ _
          · exact List.mem_cons_of_mem _ (ih.2 ⟨h2, hne⟩)

theorem not_mem_filterNe_self (l : List α) (x : α) : x ∉ filterNe l x := by
  intro h
  exact ((mem_filterNe l x x).1 h).2 rfl

end AListLemmas

/-! ## Handler lemmas -/

/-- A login whose presence write reports no change (identity already online
in the store) does nothing at all. -/
theorem userLogin_already_online (s : ServerState) (email : Email) (sock : SocketId)
    (groups : List GroupId) (now : Nat) (h : alGet s.students email = some "online") :
    userLogin s email sock groups now = (s, []) := by
  simp [userLogin, setStatus, h]

/-- The grace-timer callback does nothing unless the identity's bucket entry
exists and is empty at fire time. -/
theorem graceTimerFire_not_empty (s : ServerState) (email : Email)
    (h : alGet s.userConnBucket email ≠ some []) :
    graceTimerFire s email = (s, []) := by
  unfold graceTimerFire
  split
  · next heq => exact absurd heq h
  · rfl

/-- The bucket the login handler leaves for the identity is never empty. -/
theorem loginBucket_ne_nil (b : List SocketId) (sock : SocketId) :
    loginBucket b sock ≠ [] := by
  unfold loginBucket
  by_cases hmem : sock ∈ b
  · simpa [hmem] using List.ne_nil_of_mem hmem
  · simp [hmem]

/-- After a login whose presence write reported a change, the identity's
bucket entry is `loginBucket` of the previous bucket. -/
theorem userLogin_bucket (s : ServerState) (email : Email) (sock : SocketId)
    (groups : List GroupId) (now : Nat)
    (hreg : (setStatus s.students email "online").2 = true) :
    alGet (userLogin s email sock groups now).1.userConnBucket email
      = some (loginBucket (bucketOf s email) sock) := by
  simp [userLogin, hreg, alGet_alSet_self, bucketOf, loginBucket]

/-- The disconnect handler on an unregistered socket does nothing. -/
theorem disconnect_unknown (s : ServerState) (sock : SocketId)
    (h : alGet s.connections sock = none) :
    disconnect s sock = (s, []) := by
  simp [disconnect, h]

/-- The bucket/activity update of the logout handler when the identity has
no bucket entry. -/
theorem logoutBucketLa_none (bucket : List (Email × List SocketId))
    (la : List (Email × Nat)) (email : Email) (sock : SocketId)
    (hg : alGet bucket email = none) :
    logoutBucketLa bucket la email sock = (bucket, la) := by
  simp [logoutBucketLa, hg]

/-- The bucket/activity update of the logout handler when the bucket
empties: both entries are deleted. -/
theorem logoutBucketLa_emptied (bucket : List (Email × List SocketId))
    (la : List (Email × Nat)) (email : Email) (sock : SocketId) (l : List SocketId)
    (hg : alGet bucket email = some l) (hfe : filterNe l sock = []) :
    logoutBucketLa bucket la email sock = (alDel bucket email, alDel la email) := by
  simp [logoutBucketLa, hg, hfe]

/-- The bucket/activity update of the logout handler when other connections
remain: only the bucket list shrinks. -/
theorem logoutBucketLa_remaining (bucket : List (Email × List SocketId))
    (la : List (Email × Nat)) (email : Email) (sock : SocketId) (l : List SocketId)
    (hg : alGet bucket email = some l) (hfe : filterNe l sock ≠ []) :
    logoutBucketLa bucket la email sock = (alSet bucket email (filterNe l sock), la) := by
  simp [logoutBucketLa, hg, hfe]

/-- The disconnect handler's bucket update when the identity has no entry. -/
theorem disconnectBucket_none (bucket : List (Email × List SocketId))
    (email : Email) (sock : SocketId) (h : alGet bucket email = none) :
    disconnectBucket bucket email sock = bucket := by
  simp [disconnectBucket, h]

/-- The disconnect handler's bucket update when the identity has an entry. -/
theorem disconnectBucket_some (bucket : List (Email × List SocketId))
    (email : Email) (sock : SocketId) (l : List SocketId)
    (h : alGet bucket email = some l) :
    disconnectBucket bucket email sock = alSet bucket email (filterNe l sock) := by
  simp [disconnectBucket, h]

/-- After the disconnect handler's bucket update, the socket is gone from
the identity's bucket. -/
theorem disconnectBucket_not_mem (bucket : List (Email × List SocketId))
    (email : Email) (sock : SocketId) :
    sock ∉ (alGet (disconnectBucket bucket email sock) email).getD [] := by
  cases hg : alGet bucket email with
  | none =>
      rw [disconnectBucket_none _ _ _ hg, hg]
      simp
  | some l =>
      rw [disconnectBucket_some _ _ _ _ hg, alGet_alSet_self]
      exact not_mem_filterNe_self l sock

/-- Filtering a socket out of every room really removes it everywhere. -/
theorem roomsRemoveSock_not_mem (rooms : List (GroupId × List SocketId))
    (sock : SocketId) :
    (roomsRemoveSock rooms sock).any (fun p => decide (sock ∈ p.2)) = false := by
  induction rooms with
  | nil => rfl
  | cons hd tl ih =>
      obtain ⟨g, l⟩ := hd
      by_cases hl : filterNe l sock = []
      · simpa [roomsRemoveSock, hl] using ih
      · simp [roomsRemoveSock, hl, ih, not_mem_filterNe_self]

/-- The registered-socket branch of the disconnect handler: the bucket and
reverse-index fields it leaves behind. -/
theorem disconnect_fields (s : ServerState) (sock : SocketId) (email : Email)
    (h : alGet s.connections sock = some email) :
    (disconnect s sock).1.userConnBucket = disconnectBucket s.userConnBucket email sock ∧
    (disconnect s sock).1.connections = alDel s.connections sock ∧
    (disconnect s sock).1.groupRooms = roomsRemoveSock s.groupRooms sock := by
  simp [disconnect, h]

/-- A presence write for one identity does not move any other identity's
stored status. -/
theorem setStatus_other (students : List (Email × String)) (email e2 : Email)
    (st : String) (h : email ≠ e2) :
    alGet (setStatus students email st).1 e2 = alGet students e2 := by
  unfold setStatus
  cases hg : alGet students email with
  | none => rfl
  | some cur =>
      by_cases hc : cur = st
      · simp [hc]
      · simp [hc, alGet_alSet_ne _ _ _ _ h]

/-- `countOffline` distributes over concatenation. -/
theorem countOffline_append (a b : List Emit) (email : Email) :
    countOffline (a ++ b) email = countOffline a email + countOffline b email := by
  simp [countOffline, List.filter_append]

/-- One sweep iteration never touches the bucket, the reverse index or the
rooms. -/
theorem sweepOne_fields (s : ServerState) (k : Email) (now : Nat) :
    (sweepOne s k now).1.userConnBucket = s.userConnBucket ∧
    (sweepOne s k now).1.connections = s.connections ∧
    (sweepOne s k now).1.groupRooms = s.groupRooms := by
  unfold sweepOne
  split
  · exact ⟨rfl, rfl, rfl⟩
  · split
    · split
      · exact ⟨rfl, rfl, rfl⟩
      · exact ⟨rfl, rfl, rfl⟩
    · exact ⟨rfl, rfl, rfl⟩

/-- One sweep iteration for key `k` leaves every other identity's activity
entry and stored status alone and emits no broadcast about it. -/
theorem sweepOne_other (s : ServerState) (k : Email) (now : Nat) (email : Email)
    (hne : k ≠ email) :
    alGet (sweepOne s k now).1.lastActivity email = alGet s.lastActivity email ∧
    alGet (sweepOne s k now).1.students email = alGet s.students email ∧
    countOffline (sweepOne s k now).2 email = 0 := by
  unfold sweepOne
  split
  · exact ⟨rfl, rfl, rfl⟩
  · split
    · split
      · refine ⟨alGet_alDel_ne _ _ _ hne, setStatus_other _ _ _ _ hne, ?_⟩
        by_cases haff : (setStatus s.students k "offline").2 = true
        · simp [markOffline, countOffline, haff, hne]
        · simp [markOffline, countOffline, haff]
      · exact ⟨rfl, rfl, rfl⟩
    · exact ⟨rfl, rfl, rfl⟩

/-- A sweep iteration for an identity with no activity entry does nothing. -/
theorem sweepOne_absent (s : ServerState) (k : Email) (now : Nat)
    (h : alGet s.lastActivity k = none) :
    sweepOne s k now = (s, []) := by
  simp [sweepOne, h]

/-- Unfolding one iteration of the sweep loop: final state. -/
theorem sweepKeys_cons_fst (s : ServerState) (now : Nat) (k : Email) (rest : List Email) :
    (sweepKeys s now (k :: rest)).1 = (sweepKeys (sweepOne s k now).1 now rest).1 := rfl

/-- Unfolding one iteration of the sweep loop: emitted events. -/
theorem sweepKeys_cons_snd (s : ServerState) (now : Nat) (k : Email) (rest : List Email) :
    (sweepKeys s now (k :: rest)).2
      = (sweepOne s k now).2 ++ (sweepKeys (sweepOne s k now).1 now rest).2 := rfl

/-- The sweep loop never emits an offline broadcast for an identity whose
activity entry is absent, and leaves its activity absence and stored status
alone. -/
theorem sweepKeys_absent (s : ServerState) (now : Nat) (ks : List Email) (email : Email)
    (h : alGet s.lastActivity email = none) :
    countOffline (sweepKeys s now ks).2 email = 0 ∧
    alGet (sweepKeys s now ks).1.lastActivity email = none ∧
    alGet (sweepKeys s now ks).1.students email = alGet s.students email := by
  induction ks generalizing s with
  | nil => exact ⟨rfl, h, rfl⟩
  | cons k rest ih =>
      by_cases hk : k = email
      · subst hk
        have h1 := sweepOne_absent s k now h
        obtain ⟨hc, hla, hst⟩ := ih s h
        refine ⟨?_, ?_, ?_⟩
        · rw [sweepKeys_cons_snd, countOffline_append, h1]
          simpa [countOffline] using hc
        · rw [sweepKeys_cons_fst, h1]
          exact hla
        · rw [sweepKeys_cons_fst, h1]
          exact hst
      · obtain ⟨hla2, hst2, hcnt⟩ := sweepOne_other s k now email hk
        have h2 : alGet (sweepOne s k now).1.lastActivity email = none := by
          rw [hla2]; exact h
        obtain ⟨hc, hla, hst⟩ := ih (sweepOne s k now).1 h2
        refine ⟨?_, hla, hst.trans hst2⟩
        rw [sweepKeys_cons_snd, countOffline_append, hcnt, hc]

/-- The sweep loop over a key list containing an eligible identity — stale
activity entry, existing empty bucket entry, stored status not yet offline —
emits exactly one offline broadcast for it, writes `offline` to the store
and removes the activity entry. -/
theorem sweepKeys_fires (s : ServerState) (now : Nat) (ks : List Email) (email : Email)
    (t : Nat) (st : String)
    (hmem : email ∈ ks) (hla : alGet s.lastActivity email = some t)
    (hage : now - t > INACTIVITY_TIMEOUT) (hb : alGet s.userConnBucket email = some [])
    (hst : alGet s.students email = some st) (hne : st ≠ "offline") :
    countOffline (sweepKeys s now ks).2 email = 1 ∧
    alGet (sweepKeys s now ks).1.students email = some "offline" ∧
    alGet (sweepKeys s now ks).1.lastActivity email = none := by
  induction ks generalizing s t st with
  | nil => cases hmem
  | cons k rest ih =>
      by_cases hk : k = email
      · subst hk
        have hss : setStatus s.students k "offline"
            = (alSet s.students k "offline", true) := by
          simp [setStatus, hst, hne]
        have hev : (sweepOne s k now).2 = [Emit.statusUpdate k "offline"] := by
          simp [sweepOne, hla, hage, hb, markOffline, hss]
        have hstu : alGet (sweepOne s k now).1.students k = some "offline" := by
          simp [sweepOne, hla, hage, hb, markOffline, hss, alGet_alSet_self]
        have hlaa : alGet (sweepOne s k now).1.lastActivity k = none := by
          simp [sweepOne, hla, hage, hb, markOffline, hss, alGet_alDel_self]
        obtain ⟨hc0, hla0, hst0⟩ := sweepKeys_absent (sweepOne s k now).1 now rest k hlaa
        refine ⟨?_, ?_, ?_⟩
        · rw [sweepKeys_cons_snd, countOffline_append, hev, hc0]
          simp [countOffline]
        · rw [sweepKeys_cons_fst]
          exact hst0.trans hstu
        · rw [sweepKeys_cons_fst]
          exact hla0
      · have hmem2 : email ∈ rest := by
          rcases List.mem_cons.1 hmem with h1 | h2
          · exact absurd h1.symm hk
          · exact h2
        obtain ⟨hla2, hst2, hcnt⟩ := sweepOne_other s k now email hk
        have hb2 : alGet (sweepOne s k now).1.userConnBucket email = some [] := by
          rw [(sweepOne_fields s k now).1]; exact hb
        have hla3 : alGet (sweepOne s k now).1.lastActivity email = some t := by
          rw [hla2]; exact hla
        have hst3 : alGet (sweepOne s k now).1.students email = some st := by
          rw [hst2]; exact hst
        obtain ⟨hc, hs2, hl2⟩ := ih (sweepOne s k now).1 t st hmem2 hla3 hage hb2 hst3 hne
        refine ⟨?_, hs2, hl2⟩
        rw [sweepKeys_cons_snd, countOffline_append, hcnt, hc]

/-- The registry invariant only reads the bucket and the reverse index, so
any step leaving those two fields alone preserves it. -/
theorem inv_of_fields (s s2 : ServerState)
    (hb : s2.userConnBucket = s.userConnBucket)
    (hc : s2.connections = s.connections) (hInv : Inv s) : Inv s2 := by
  intro email sk hsk
  rw [hc]
  refine hInv email sk ?_
  have heq : bucketOf s email = bucketOf s2 email := by
    rw [bucketOf, bucketOf, hb]
  rw [heq]
  exact hsk

/-- The bucket and reverse-index fields a registering login leaves. -/
theorem userLogin_state (s : ServerState) (email : Email) (sock : SocketId)
    (groups : List GroupId) (now : Nat)
    (hreg : (setStatus s.students email "online").2 = true) :
    (userLogin s email sock groups now).1.userConnBucket
      = alSet s.userConnBucket email
          (loginBucket ((alGet s.userConnBucket email).getD []) sock) ∧
    (userLogin s email sock groups now).1.connections
      = alSet s.connections sock email := by
  simp [userLogin, hreg]

/-- A well-formed login preserves the registry invariant. -/
theorem inv_userLogin (s : ServerState) (email : Email) (sock : SocketId)
    (groups : List GroupId) (now : Nat) (hInv : Inv s)
    (hwf : alGet s.connections sock = none ∨ alGet s.connections sock = some email) :
    Inv (userLogin s email sock groups now).1 := by
  by_cases hreg : (setStatus s.students email "online").2 = true
  · obtain ⟨hb, hc⟩ := userLogin_state s email sock groups now hreg
    intro e sk hsk
    rw [hc]
    rw [bucketOf, hb, alGet_alSet] at hsk
    by_cases he : email = e
    · subst he
      rw [if_pos rfl] at hsk
      simp only [Option.getD_some] at hsk
      have hsplit : sk = sock ∨ sk ∈ bucketOf s email := by
        unfold loginBucket at hsk
        by_cases hm : sock ∈ (alGet s.userConnBucket email).getD []
        · rw [if_pos hm] at hsk
          exact Or.inr hsk
        · rw [if_neg hm] at hsk
          rcases List.mem_append.1 hsk with h1 | h2
          · exact Or.inr h1
          · exact Or.inl (List.mem_singleton.1 h2)
      rcases hsplit with rfl | hmem
      · rw [alGet_alSet_self]
      · by_cases hsks : sock = sk
        · subst hsks
          rw [alGet_alSet_self]
        · rw [alGet_alSet_ne _ _ _ _ hsks]
          exact hInv email sk hmem
    · rw [if_neg he] at hsk
      have h2 : alGet s.connections sk = some e := hInv e sk hsk
      have hsks : sock ≠ sk := by
        rintro rfl
        rcases hwf with hw | hw
        · rw [hw] at h2
          exact Option.noConfusion h2
        · exact he (Option.some.inj (hw.symm.trans h2))
      rw [alGet_alSet_ne _ _ _ _ hsks]
      exact h2
  · have hno : userLogin s email sock groups now = (s, []) := by
      simp [userLogin, hreg]
    rw [hno]
    exact hInv

/-- The bucket and reverse-index fields a successful logout leaves. -/
theorem userLogout_state (s : ServerState) (email : Email) (sock : SocketId)
    (haff : (setStatus s.students email "offline").2 = true) :
    (userLogout s email sock).1.userConnBucket
      = (logoutBucketLa s.userConnBucket s.lastActivity email sock).1 ∧
    (userLogout s email sock).1.connections = alDel s.connections sock := by
  simp [userLogout, haff]

/-- A well-formed logout preserves the registry invariant. -/
theorem inv_userLogout (s : ServerState) (email : Email) (sock : SocketId)
    (hInv : Inv s)
    (hwf : alGet s.connections sock = none ∨ alGet s.connections sock = some email) :
    Inv (userLogout s email sock).1 := by
  by_cases haff : (setStatus s.students email "offline").2 = true
  · obtain ⟨hb, hc⟩ := userLogout_state s email sock haff
    intro e sk hsk
    rw [hc]
    rw [bucketOf, hb] at hsk
    cases hg : alGet s.userConnBucket email with
    | none =>
        rw [logoutBucketLa_none _ _ _ _ hg] at hsk
        have h2 : alGet s.connections sk = some e := hInv e sk hsk
        have hsks : sock ≠ sk := by
          rintro rfl
          rcases hwf with hw | hw
          · rw [hw] at h2
            exact Option.noConfusion h2
          · have heq : email = e := Option.some.inj (hw.symm.trans h2)
            rw [← heq, hg] at hsk
            simp at hsk
        rw [alGet_alDel_ne _ _ _ hsks]
        exact h2
    | some l =>
        by_cases hfe : filterNe l sock = []
        · rw [logoutBucketLa_emptied _ _ _ _ _ hg hfe] at hsk
          by_cases he : email = e
          · subst he
            rw [alGet_alDel_self] at hsk
            simp at hsk
          · rw [alGet_alDel_ne _ _ _ he] at hsk
            have h2 : alGet s.connections sk = some e := hInv e sk hsk
            have hsks : sock ≠ sk := by
              rintro rfl
              rcases hwf with hw | hw
              · rw [hw] at h2
                exact Option.noConfusion h2
              · exact he (Option.some.inj (hw.symm.trans h2))
            rw [alGet_alDel_ne _ _ _ hsks]
            exact h2
        · rw [logoutBucketLa_remaining _ _ _ _ _ hg hfe, alGet_alSet] at hsk
          by_cases he : email = e
          · subst he
            rw [if_pos rfl] at hsk
            simp only [Option.getD_some] at hsk
            obtain ⟨hmem, hske⟩ := (mem_filterNe l sock sk).1 hsk
            have h2 : alGet s.connections sk = some email := by
              refine hInv email sk ?_
              rw [bucketOf, hg]
              exact hmem
            rw [alGet_alDel_ne _ _ _ (fun h => hske h.symm)]
            exact h2
          · rw [if_neg he] at hsk
            have h2 : alGet s.connections sk = some e := hInv e sk hsk
            have hsks : sock ≠ sk := by
              rintro rfl
              rcases hwf with hw | hw
              · rw [hw] at h2
                exact Option.noConfusion h2
              · exact he (Option.some.inj (hw.symm.trans h2))
            rw [alGet_alDel_ne _ _ _ hsks]
            exact h2
  · have hno : userLogout s email sock = (s, []) := by
      simp [userLogout, haff]
    rw [hno]
    exact hInv

/-- A disconnect preserves the registry invariant. -/
theorem inv_disconnect (s : ServerState) (sock : SocketId) (hInv : Inv s) :
    Inv (disconnect s sock).1 := by
  cases hcn : alGet s.connections sock with
  | none =>
      rw [disconnect_unknown s sock hcn]
      exact hInv
  | some email =>
      obtain ⟨hb, hc, _⟩ := disconnect_fields s sock email hcn
      intro e sk hsk
      rw [hc]
      rw [bucketOf, hb] at hsk
      cases hg : alGet s.userConnBucket email with
      | none =>
          rw [disconnectBucket_none _ _ _ hg] at hsk
          have h2 : alGet s.connections sk = some e := hInv e sk hsk
          have hsks : sock ≠ sk := by
            rintro rfl
            have heq : email = e := Option.some.inj (hcn.symm.trans h2)
            rw [← heq, hg] at hsk
            simp at hsk
          rw [alGet_alDel_ne _ _ _ hsks]
          exact h2
      | some l =>
          rw [disconnectBucket_some _ _ _ _ hg, alGet_alSet] at hsk
          by_cases he : email = e
          · subst he
            rw [if_pos rfl] at hsk
            simp only [Option.getD_some] at hsk
            obtain ⟨hmem, hske⟩ := (mem_filterNe l sock sk).1 hsk
            have h2 : alGet s.connections sk = some email := by
              refine hInv email sk ?_
              rw [bucketOf, hg]
              exact hmem
            rw [alGet_alDel_ne _ _ _ (fun h => hske h.symm)]
            exact h2
          · rw [if_neg he] at hsk
            have h2 : alGet s.connections sk = some e := hInv e sk hsk
            have hsks : sock ≠ sk := by
              rintro rfl
              exact he (Option.some.inj (hcn.symm.trans h2))
            rw [alGet_alDel_ne _ _ _ hsks]
            exact h2

/-- The grace-timer callback preserves the registry invariant: it only ever
deletes a bucket entry that is empty. -/
theorem inv_graceTimerFire (s : ServerState) (email : Email) (hInv : Inv s) :
    Inv (graceTimerFire s email).1 := by
  by_cases hg : alGet s.userConnBucket email = some []
  · intro e sk hsk
    have hstate : (graceTimerFire s email).1.userConnBucket
        = alDel s.userConnBucket email ∧
        (graceTimerFire s email).1.connections = s.connections := by
      simp [graceTimerFire, hg, markOffline]
    rw [hstate.2]
    rw [bucketOf, hstate.1] at hsk
    by_cases he : email = e
    · subst he
      rw [alGet_alDel_self] at hsk
      simp at hsk
    · rw [alGet_alDel_ne _ _ _ he] at hsk
      exact hInv e sk hsk
  · rw [graceTimerFire_not_empty s email hg]
    exact hInv

/-- A heartbeat never touches the bucket or the reverse index. -/
theorem userHeartbeat_fields (s : ServerState) (email : Email) (now : Nat) :
    (userHeartbeat s email now).1.userConnBucket = s.userConnBucket ∧
    (userHeartbeat s email now).1.connections = s.connections := by
  unfold userHeartbeat
  split
  · exact ⟨rfl, rfl⟩
  · exact ⟨rfl, rfl⟩

/-- Joining a group never touches the bucket or the reverse index. -/
theorem joinGroup_fields (s : ServerState) (sock : SocketId) (gid : GroupId)
    (memberOk : Bool) :
    (joinGroup s sock gid memberOk).1.userConnBucket = s.userConnBucket ∧
    (joinGroup s sock gid memberOk).1.connections = s.connections := by
  unfold joinGroup
  split
  · exact ⟨rfl, rfl⟩
  · exact ⟨rfl, rfl⟩

/-- Leaving a group never touches the bucket or the reverse index. -/
theorem leaveGroup_fields (s : ServerState) (sock : SocketId) (gid : GroupId) :
    (leaveGroup s sock gid).1.userConnBucket = s.userConnBucket ∧
    (leaveGroup s sock gid).1.connections = s.connections := by
  unfold leaveGroup
  split
  · exact ⟨rfl, rfl⟩
  · constructor
    · split <;> rfl
    · split <;> rfl

/-- The sweep loop never touches the bucket or the reverse index. -/
theorem sweepKeys_fields (s : ServerState) (now : Nat) (ks : List Email) :
    (sweepKeys s now ks).1.userConnBucket = s.userConnBucket ∧
    (sweepKeys s now ks).1.connections = s.connections := by
  induction ks generalizing s with
  | nil => exact ⟨rfl, rfl⟩
  | cons k rest ih =>
      obtain ⟨h1, h2, _⟩ := sweepOne_fields s k now
      obtain ⟨h4, h5⟩ := ih (sweepOne s k now).1
      exact ⟨h4.trans h1, h5.trans h2⟩

/-- The group-message handler never mutates in-memory state. -/
theorem groupMessage_state (s : ServerState) (sender : Email) (gid : GroupId)
    (msg : String) (memberOk insertOk : Bool) :
    (groupMessage s sender gid msg memberOk insertOk).state = s := by
  cases memberOk <;> cases insertOk <;> rfl

/-! ## Claims -/

/-- Claim C1: when a new connection for an identity registers strictly before
the 10-second grace timer fires, the offline transition does not happen at
fire time — no `status_update(offline)` broadcast, no presence write, and the
ActivityTracker entry is kept (the state is untouched); and the callback
performs the offline transition only when the identity's bucket entry still
exists with zero live connections at that moment (any other bucket state
makes it a no-op). -/
theorem c1_registered_reconnect_blocks_offline (s u : ServerState) (email : Email)
    (sock : SocketId) (groups : List GroupId) (now : Nat)
    (hreg : (setStatus s.students email "online").2 = true)
    (hu : alGet u.userConnBucket email ≠ some []) :
    graceTimerFire (userLogin s email sock groups now).1 email
      = ((userLogin s email sock groups now).1, []) ∧
    graceTimerFire u email = (u, []) := by
  refine ⟨?_, graceTimerFire_not_empty u email hu⟩
  apply graceTimerFire_not_empty
  rw [userLogin_bucket s email sock groups now hreg]
  intro h
  exact loginBucket_ne_nil (bucketOf s email) sock (Option.some.inj h)

/-- Witness for C1 at a concrete reconnect: the store knows a@x (offline, so
the login registers), and the timer fires against both the post-login state
and a state with no bucket entry. -/
theorem c1_witness :
    (setStatus storeOffA.students "a@x" "online").2 = true ∧
    alGet emptyState.userConnBucket "a@x" ≠ some [] ∧
    (graceTimerFire (userLogin storeOffA "a@x" "c2" [] 5).1 "a@x"
        = ((userLogin storeOffA "a@x" "c2" [] 5).1, []) ∧
     graceTimerFire emptyState "a@x" = (emptyState, [])) :=
  ⟨by decide, by decide,
   c1_registered_reconnect_blocks_offline storeOffA emptyState "a@x" "c2" [] 5
     (by decide) (by decide)⟩

/-- Claim C2: for an identity already online in the store, any number of
repeated identical `user_login` events produces at most one
`status_update(online)` broadcast in total (in fact none: every such login's
presence write reports no change, so the handler emits nothing). -/
theorem c2_repeated_login_broadcast_bound (s : ServerState) (email : Email)
    (sock : SocketId) (groups : List GroupId) (now : Nat) (n : Nat)
    (h : alGet s.students email = some "online") :
    countOnline (loginRepeat email sock groups now n s).2 email ≤ 1 := by
  have hz : ∀ m, loginRepeat email sock groups now m s = (s, []) := by
    intro m
    induction m with
    | zero => rfl
    | succ k ih =>
        simp [loginRepeat, userLogin_already_online s email sock groups now h, ih]
  rw [hz n]
  simp [countOnline]

/-- Witness for C2: three identical logins of an already-online identity. -/
theorem c2_witness :
    alGet storeOnA.students "a@x" = some "online" ∧
    countOnline (loginRepeat "a@x" "s1" [] 3 4 storeOnA).2 "a@x" ≤ 1 :=
  ⟨by decide, c2_repeated_login_broadcast_bound storeOnA "a@x" "s1" [] 3 4 (by decide)⟩

/-- Counterexample to Claim C3 as stated: `c3Swept` is reached by login,
transport close and a later sweep; the identity e@x then has zero tracked
connections (its bucket entry exists and is empty) and no activity entry,
yet a `user_heartbeat` for it emits a `status_update(online)` broadcast,
flips the stored presence from offline to online and (re)writes the
last-activity timestamp — because the handler's guard
`if (userConnBucket[email])` treats the existing empty array as truthy. -/
theorem c3_counterexample :
    bucketOf c3Swept "e@x" = [] ∧
    alGet c3Swept.students "e@x" = some "offline" ∧
    alGet c3Swept.lastActivity "e@x" = none ∧
    (userHeartbeat c3Swept "e@x" 360002).2 = [Emit.statusUpdate "e@x" "online"] ∧
    alGet (userHeartbeat c3Swept "e@x" 360002).1.students "e@x" = some "online" ∧
    alGet (userHeartbeat c3Swept "e@x" 360002).1.lastActivity "e@x" = some 360002 := by
  decide

/-- Claim C3 as amended: a `user_heartbeat` for an identity with no
`userConnBucket` entry at all has no effect — no presence write, no
broadcast, no last-activity update (the state is untouched).  (An identity
whose bucket entry exists with zero sockets does get its activity stamped
and a presence write issued, since the empty array is truthy.) -/
theorem c3_heartbeat_absent_noop (s : ServerState) (email : Email) (now : Nat)
    (h : alGet s.userConnBucket email = none) :
    userHeartbeat s email now = (s, []) := by
  simp [userHeartbeat, h]

/-- Witness for the amended C3: a heartbeat for an untracked identity. -/
theorem c3_witness :
    alGet emptyState.userConnBucket "z@x" = none ∧
    userHeartbeat emptyState "z@x" 9 = (emptyState, []) :=
  ⟨by decide, c3_heartbeat_absent_noop emptyState "z@x" 9 (by decide)⟩

/-- Claim C4: processing a disconnect for a connection with no reverse-index
entry is a complete no-op — no registry is mutated, no presence write
occurs, no broadcast is emitted (and the embedded handler is a total
function, so no exception is possible). -/
theorem c4_disconnect_unknown_noop (s : ServerState) (sock : SocketId)
    (h : alGet s.connections sock = none) :
    disconnect s sock = (s, []) := by
  simp [disconnect, h]

/-- Witness for C4: a disconnect for a never-seen socket id. -/
theorem c4_witness :
    alGet emptyState.connections "s9" = none ∧
    disconnect emptyState "s9" = (emptyState, []) :=
  ⟨by decide, c4_disconnect_unknown_noop emptyState "s9" (by decide)⟩

/-- Claim C5: a `group_message` is broadcast to the group room exactly when
the sender passes the membership check and the store insert succeeds; a
non-member request is dropped silently — nothing emitted to anyone, no store
insert attempted, state untouched — and a failed insert suppresses the
broadcast (while the state is still untouched). -/
theorem c5_group_message_gating (s : ServerState) (sender : Email) (gid : GroupId)
    (msg : String) (memberOk insertOk : Bool) :
    (groupMessage s sender gid msg memberOk insertOk).emits
        = (if memberOk = true ∧ insertOk = true
           then [Emit.groupMessage gid sender msg] else []) ∧
    (groupMessage s sender gid msg memberOk insertOk).insertAttempted = memberOk ∧
    (groupMessage s sender gid msg memberOk insertOk).state = s := by
  cases memberOk <;> cases insertOk <;> simp [groupMessage]

/-- Claim C10: a `user_login` whose presence write matches no store row
(unknown or deleted identity) leaves every piece of in-memory state
unchanged and emits nothing: no bucket or reverse-index entry, no activity
stamp, no room joins, no broadcast. -/
theorem c10_login_unknown_identity_noop (s : ServerState) (email : Email)
    (sock : SocketId) (groups : List GroupId) (now : Nat)
    (h : alGet s.students email = none) :
    userLogin s email sock groups now = (s, []) := by
  simp [userLogin, setStatus, h]

/-- Witness for C10: a login for an identity the store does not know. -/
theorem c10_witness :
    alGet emptyState.students "ghost@x" = none ∧
    userLogin emptyState "ghost@x" "s1" ["g1"] 2 = (emptyState, []) :=
  ⟨by decide, c10_login_unknown_identity_noop emptyState "ghost@x" "s1" ["g1"] 2 (by decide)⟩

/-- Counterexample to Claim C6 as stated: from the empty server, socket s1
logs in as e1@x and then sends a second login carrying identity e2@x (both
identities exist offline in the store, so both writes report a change).
Afterwards s1 appears in the buckets of BOTH identities — the login handler
never removes a connection from its previous identity's bucket — while the
reverse index points only at the second, so the reverse index disagrees
with e1@x's connection set. -/
theorem c6_counterexample :
    "s1" ∈ bucketOf c6End "e1@x" ∧
    "s1" ∈ bucketOf c6End "e2@x" ∧
    ("e1@x" : Email) ≠ "e2@x" ∧
    alGet c6End.connections "s1" = some "e2@x" := by
  decide

/-- Claim C6 as amended: the registry invariant — every connection in some
identity's bucket resolves through the reverse index to exactly that
identity, hence appears under at most one identity — is preserved by every
operation PROVIDED each login and logout event carries the identity its
connection is registered under (or arrives on an unregistered connection).
A login carrying a different identity on an already-registered connection
violates the invariant: the connection stays in the old identity's bucket
while the reverse index moves to the new identity. -/
theorem c6_registry_invariant_preserved (s : ServerState) (ev : Ev)
    (hInv : Inv s) (hwf : evWF s ev) :
    Inv (step s ev).1 ∧ AtMostOne (step s ev).1 := by
  have hInv2 : Inv (step s ev).1 := by
    cases ev with
    | login email sock groups now => exact inv_userLogin s email sock groups now hInv hwf
    | heartbeat email now =>
        obtain ⟨h1, h2⟩ := userHeartbeat_fields s email now
        exact inv_of_fields s _ h1 h2 hInv
    | logout email sock => exact inv_userLogout s email sock hInv hwf
    | chatMsg a b c ok => exact hInv
    | groupMsg sender gid msg m i =>
        have hst : (groupMessage s sender gid msg m i).state = s :=
          groupMessage_state s sender gid msg m i
        show Inv (groupMessage s sender gid msg m i).state
        rw [hst]
        exact hInv
    | joinGroupEv sock gid ok =>
        obtain ⟨h1, h2⟩ := joinGroup_fields s sock gid ok
        exact inv_of_fields s _ h1 h2 hInv
    | leaveGroupEv sock gid =>
        obtain ⟨h1, h2⟩ := leaveGroup_fields s sock gid
        exact inv_of_fields s _ h1 h2 hInv
    | disconnectEv sock => exact inv_disconnect s sock hInv
    | graceFire email => exact inv_graceTimerFire s email hInv
    | sweepEv now =>
        obtain ⟨h1, h2⟩ := sweepKeys_fields s now (s.lastActivity.map Prod.fst)
        exact inv_of_fields s _ h1 h2 hInv
    | groupCreatedEv gid ms cb live => exact inv_of_fields s _ rfl rfl hInv
  refine ⟨hInv2, ?_⟩
  intro sk e1 e2 h1 h2
  exact Option.some.inj ((hInv2 e1 sk h1).symm.trans (hInv2 e2 sk h2))

/-- Witness for the amended C6: the invariant holds after a first login on
the empty server. -/
theorem c6_witness :
    Inv (step emptyState (Ev.login "e1@x" "s1" [] 0)).1 ∧
    AtMostOne (step emptyState (Ev.login "e1@x" "s1" [] 0)).1 :=
  c6_registry_invariant_preserved emptyState (Ev.login "e1@x" "s1" [] 0)
    (by intro e sk h; simp [bucketOf, emptyState, alGet] at h)
    (Or.inl rfl)

/-- Counterexample to Claim C7 as stated: identity c@x has a six-minute-old
activity entry and zero live connections because it has NO `userConnBucket`
entry at all — yet the sweep skips it entirely (the guard
`userConnBucket[email] && userConnBucket[email].length === 0` is falsy for a
missing entry): no offline transition, no broadcast, state unchanged. -/
theorem c7_counterexample :
    alGet c7NoEntry.lastActivity "c@x" = some 0 ∧
    360001 - 0 > INACTIVITY_TIMEOUT ∧
    alGet c7NoEntry.userConnBucket "c@x" = none ∧
    alGet c7NoEntry.students "c@x" = some "online" ∧
    sweep c7NoEntry 360001 = (c7NoEntry, []) := by
  decide

/-- Claim C7 as amended: each sweep run forces offline every identity whose
last-activity age exceeds the 5-minute threshold and whose bucket entry
exists with zero sockets (identities with no bucket entry at all are
skipped): for such an identity whose stored status is not yet offline the
run emits exactly one `status_update(offline)`, writes `offline` to the
store and removes the activity entry — and an immediately repeated run
emits zero further offline broadcasts for it. -/
theorem c7_sweep_forces_offline (s : ServerState) (email : Email) (now t : Nat)
    (st : String)
    (hla : alGet s.lastActivity email = some t)
    (hage : now - t > INACTIVITY_TIMEOUT)
    (hb : alGet s.userConnBucket email = some [])
    (hst : alGet s.students email = some st) (hne : st ≠ "offline") :
    countOffline (sweep s now).2 email = 1 ∧
    alGet (sweep s now).1.students email = some "offline" ∧
    alGet (sweep s now).1.lastActivity email = none ∧
    countOffline (sweep (sweep s now).1 now).2 email = 0 := by
  have hmem : email ∈ s.lastActivity.map Prod.fst := alGet_eq_some_mem_keys _ _ _ hla
  obtain ⟨h1, h2, h3⟩ :=
    sweepKeys_fires s now (s.lastActivity.map Prod.fst) email t st hmem hla hage hb hst hne
  exact ⟨h1, h2, h3, (sweepKeys_absent (sweep s now).1 now _ email h3).1⟩

/-- Witness for the amended C7: c@x, last active 6 minutes ago, with an
existing empty bucket entry, swept once and then again. -/
theorem c7_witness :
    alGet c7SweepReady.lastActivity "c@x" = some 0 ∧
    360001 - 0 > INACTIVITY_TIMEOUT ∧
    alGet c7SweepReady.userConnBucket "c@x" = some [] ∧
    alGet c7SweepReady.students "c@x" = some "online" ∧
    ("online" : String) ≠ "offline" ∧
    (countOffline (sweep c7SweepReady 360001).2 "c@x" = 1 ∧
     alGet (sweep c7SweepReady 360001).1.students "c@x" = some "offline" ∧
     alGet (sweep c7SweepReady 360001).1.lastActivity "c@x" = none ∧
     countOffline (sweep (sweep c7SweepReady 360001).1 360001).2 "c@x" = 0) :=
  ⟨by decide, by decide, by decide, by decide, by decide,
   c7_sweep_forces_offline c7SweepReady "c@x" 360001 0 "online"
     (by decide) (by decide) (by decide) (by decide) (by decide)⟩

/-- Counterexample to Claim C8 as stated: socket s1 joins room g1 (the
membership authority approves) without ever logging in, so it has no
reverse-index entry; its transport close is then a complete no-op and the
socket is NOT removed from the RoomRegistry — `groupRooms` still lists it. -/
theorem c8_counterexample :
    alGet c8Joined.connections "s1" = none ∧
    inAnyRoom c8Joined "s1" = true ∧
    disconnect c8Joined "s1" = (c8Joined, []) ∧
    inAnyRoom (disconnect c8Joined "s1").1 "s1" = true := by
  decide

/-- Claim C8 as amended: for a connection that is registered (it has a
reverse-index entry), the transport-close event symmetrically undoes
registration: afterwards the connection is absent from the owning
identity's SessionRegistry bucket, from the reverse index, and from every
RoomRegistry entry.  A connection that joined rooms without ever being
registered by a login is left in the RoomRegistry: its disconnect is a
complete no-op. -/
theorem c8_disconnect_registered_cleanup (s : ServerState) (sock : SocketId)
    (email : Email) (h : alGet s.connections sock = some email) :
    sock ∉ bucketOf (disconnect s sock).1 email ∧
    alGet (disconnect s sock).1.connections sock = none ∧
    inAnyRoom (disconnect s sock).1 sock = false := by
  obtain ⟨hb, hc, hr⟩ := disconnect_fields s sock email h
  refine ⟨?_, ?_, ?_⟩
  · rw [bucketOf, hb]
    exact disconnectBucket_not_mem s.userConnBucket email sock
  · rw [hc]
    exact alGet_alDel_self s.connections sock
  · rw [inAnyRoom, hr]
    exact roomsRemoveSock_not_mem s.groupRooms sock

/-- Witness for the amended C8: a registered connection that also sits in a
room with another socket. -/
theorem c8_witness :
    alGet c8Reg.connections "s1" = some "e@x" ∧
    ("s1" ∉ bucketOf (disconnect c8Reg "s1").1 "e@x" ∧
     alGet (disconnect c8Reg "s1").1.connections "s1" = none ∧
     inAnyRoom (disconnect c8Reg "s1").1 "s1" = false) :=
  ⟨by decide, c8_disconnect_registered_cleanup c8Reg "s1" "e@x" (by decide)⟩

/-- Claim C9: a successful `user_logout` arriving on one of an identity's
several live connections writes `offline` to the store and broadcasts
exactly one `status_update(offline)`, while removing only the triggering
connection: the bucket keeps the other connections (so the in-memory
registry still reports the identity as having live connections while the
store says offline), the activity entry survives, and the other
connections' reverse-index entries are untouched. -/
theorem c9_logout_multi_connection (s : ServerState) (email : Email)
    (sock other : SocketId) (l : List SocketId)
    (hst : alGet s.students email = some "online")
    (hb : alGet s.userConnBucket email = some l)
    (hsk : sock ∈ l) (hot : other ∈ l) (hne : other ≠ sock) :
    (userLogout s email sock).2 = [Emit.statusUpdate email "offline"] ∧
    alGet (userLogout s email sock).1.students email = some "offline" ∧
    alGet (userLogout s email sock).1.userConnBucket email = some (filterNe l sock) ∧
    other ∈ filterNe l sock ∧
    filterNe l sock ≠ [] ∧
    alGet (userLogout s email sock).1.lastActivity email = alGet s.lastActivity email ∧
    alGet (userLogout s email sock).1.connections sock = none ∧
    alGet (userLogout s email sock).1.connections other = alGet s.connections other := by
  have hof : other ∈ filterNe l sock := (mem_filterNe l sock other).2 ⟨hot, hne⟩
  have hfne : filterNe l sock ≠ [] := List.ne_nil_of_mem hof
  have hss : setStatus s.students email "offline"
      = (alSet s.students email "offline", true) := by
    simp [setStatus, hst]
  have hlb := logoutBucketLa_remaining s.userConnBucket s.lastActivity email sock l hb hfne
  have hso : sock ≠ other := fun h => hne h.symm
  refine ⟨?_, ?_, ?_, hof, hfne, ?_, ?_, ?_⟩ <;>
    simp [userLogout, hss, hlb, alGet_alSet_self, alGet_alDel_self,
      alGet_alDel_ne _ _ _ hso]

/-- Witness for C9: e@x is online on s1 and s2 and logs out from s1. -/
theorem c9_witness :
    alGet twoConnState.students "e@x" = some "online" ∧
    alGet twoConnState.userConnBucket "e@x" = some ["s1", "s2"] ∧
    "s1" ∈ ["s1", "s2"] ∧ "s2" ∈ ["s1", "s2"] ∧ ("s2" : SocketId) ≠ "s1" ∧
    ((userLogout twoConnState "e@x" "s1").2 = [Emit.statusUpdate "e@x" "offline"] ∧
     alGet (userLogout twoConnState "e@x" "s1").1.students "e@x" = some "offline" ∧
     alGet (userLogout twoConnState "e@x" "s1").1.userConnBucket "e@x"
        = some (filterNe ["s1", "s2"] "s1") ∧
     "s2" ∈ filterNe ["s1", "s2"] "s1" ∧
     filterNe ["s1", "s2"] "s1" ≠ [] ∧
     alGet (userLogout twoConnState "e@x" "s1").1.lastActivity "e@x"
        = alGet twoConnState.lastActivity "e@x" ∧
     alGet (userLogout twoConnState "e@x" "s1").1.connections "s1" = none ∧
     alGet (userLogout twoConnState "e@x" "s1").1.connections "s2"
        = alGet twoConnState.connections "s2") :=
  ⟨by decide, by decide, by decide, by decide, by decide,
   c9_logout_multi_connection twoConnState "e@x" "s1" "s2" ["s1", "s2"]
     (by decide) (by decide) (by decide) (by decide) (by decide)⟩

end NodeSockets
